import Mathlib

set_option maxHeartbeats 1000000
set_option maxRecDepth 4096

/--
Byte-level model of the `fill_buffer` template of `maskingrules.cc`: lays the
fill string `f` (read starting at index `j`) over `n` output bytes, cycling
back to the start of `f` each time its end is reached, exactly as the C++ loop
advances `pFill` and resets it at `f_last`.
-/
def fillBuffer (f : List Nat) (j : Nat) : Nat → List Nat
  | 0 => []
  | n + 1 => f.getD j 0 :: fillBuffer f (if j + 1 = f.length then 0 else j + 1) n

/--
`MaskingRules::ReplaceRule::rewrite` on the bytes of a length-encoded column
payload `s`: if the replacement `value` is non-empty and its length equals the
payload length, `std::copy` writes `value` over the payload; otherwise, if
`fill` is non-empty, `fill_buffer` tiles `fill` over the whole payload;
otherwise the payload is logged about and left untouched.
-/
def replaceRewrite (value fill s : List Nat) : List Nat :=
  if value ≠ [] ∧ value.length = s.length then value ++ s.drop value.length
  else if fill ≠ [] then fillBuffer fill 0 s.length
  else s

/--
The value of byte `b` when read as the C `char` type of the build platform
(MaxScale's supported builds are Linux x86-64, where `char` is signed 8-bit).
-/
def charOfByte (b : Nat) : Int :=
  if b % 256 < 128 then ((b % 256 : Nat) : Int) else ((b % 256 : Nat) : Int) - 256

/-- Truncation of a C integer expression back to a byte (unsigned 8-bit). -/
def byteOfChar (i : Int) : Nat := (i % 256).toNat

/--
`maxscale_basic_obfuscation` of `maskingrules.cc`, byte for byte: ROT13 on
the ASCII letter ranges, and for any other `char` `c` the code computes
`char d = c + 32` (a narrowing conversion) followed by the saturation
`d = d > 127 ? 127 : d`.  The saturation test is kept although, `char` being
signed on the build platform, it can never fire.
-/
def maxscale_basic_obfuscation (b : Nat) : Nat :=
  let c := charOfByte b
  if 97 ≤ c ∧ c ≤ 122 then byteOfChar ((c - 97 + 13) % 26 + 97)
  else if 65 ≤ c ∧ c ≤ 90 then byteOfChar ((c - 65 + 13) % 26 + 65)
  else
    let d := charOfByte (byteOfChar (c + 32))
    byteOfChar (if 127 < d then 127 else d)

/--
`MaskingRules::ObfuscateRule::rewrite`: `std::transform` applies
`maxscale_basic_obfuscation` to every byte of the payload.
-/
def obfuscateRewrite (s : List Nat) : List Nat := s.map maxscale_basic_obfuscation

/--
Result of one `pcre2_match` call: `found rv s0 e0` models a return value
`rv >= 0` with ovector pair `(s0, e0)` for the full match, `fail rv` models a
negative return value `rv` (no match, partial match, or a real error).
-/
inductive MatchRes where
  | found (rv : Int) (s0 e0 : Nat)
  | fail (rv : Int)

/--
In-place tiling of `fill` over the matched substring `[s0, s0 + n)` of the
payload, as done by the `fill_buffer(m_fill.begin(), m_fill.end(), i,
i + substring_len)` call of `CaptureRule::rewrite`.
-/
def overwrite (p : List Nat) (s0 n : Nat) (fill : List Nat) : List Nat :=
  p.take s0 ++ fillBuffer fill 0 n ++ p.drop (s0 + n)

/--
The matching loop of `MaskingRules::CaptureRule::rewrite`, with the compiled
regex abstracted as the match function `pm` (applied, as in the source, to the
current partially rewritten payload) and an explicit fuel argument standing
for the a-priori unknown number of iterations.  The loop state is the payload,
the start offset and the last `pcre2_match` return value `rv` (initially 0);
the result carries the final payload and the final `rv` inspected by the
error-logging test after the loop.  `none` means the fuel ran out.
-/
def captureAux (pm : List Nat → Nat → MatchRes) (fill : List Nat) :
    List Nat → Nat → Int → Nat → Option (List Nat × Int)
  | _, _, _, 0 => none
  | p, off, rv, fuel + 1 =>
    if off < p.length then
      match pm p off with
      | .fail rv' => some (p, rv')
      | .found rv' s0 e0 =>
        if e0 = s0 then some (p, rv')
        else captureAux pm fill (overwrite p s0 (e0 - s0) fill) e0 rv' fuel
    else some (p, rv)

/--
`MaskingRules::CaptureRule::rewrite` on payload `p`: the matching loop starts
at offset 0 with `rv = 0`; fuel `p.length + 1` is proved sufficient below.
-/
def captureRewrite (pm : List Nat → Nat → MatchRes) (fill p : List Nat) :
    Option (List Nat × Int) :=
  captureAux pm fill p 0 0 (p.length + 1)

/--
The error-logging condition after the matching loop, as the source writes it:
`rv < 0 && (rv != PCRE2_ERROR_NOMATCH || PCRE2_ERROR_PARTIAL)`, where
`PCRE2_ERROR_NOMATCH = -1` and the constant `PCRE2_ERROR_PARTIAL = -2` is
used directly as a C truth value.
-/
def capture_logs_error (rv : Int) : Bool :=
  decide (rv < 0) && (decide (rv ≠ -1) || decide ((-2 : Int) ≠ 0))

/--
The error-logging condition the surrounding comment ("Log errors, excluding
NO_MATCH or PARTIAL") intends: `rv < 0 && rv != -1 && rv != -2`.
-/
def capture_logs_error_intended (rv : Int) : Bool :=
  decide (rv < 0) && decide (rv ≠ -1) && decide (rv ≠ -2)

theorem fillBuffer_length (f : List Nat) : ∀ j n, (fillBuffer f j n).length = n := by
  intro j n
  induction n generalizing j with
  | zero => rfl
  | succ n ih => simp [fillBuffer, ih]

theorem fillBuffer_getD (f : List Nat) :
    ∀ n j i, j < f.length → i < n →
      (fillBuffer f j n).getD i 0 = f.getD ((j + i) % f.length) 0 := by
  intro n
  induction n with
  | zero => intro j i _ hi; exact absurd hi (Nat.not_lt_zero i)
  | succ n ih =>
    intro j i hj hi
    cases i with
    | zero =>
      simp only [fillBuffer, List.getD_cons_zero, Nat.add_zero]
      rw [Nat.mod_eq_of_lt hj]
    | succ i =>
      have hstep : (if j + 1 = f.length then 0 else j + 1) = (j + 1) % f.length := by
        split
        next h => rw [h, Nat.mod_self]
        next h =>
          have hlt : j + 1 < f.length := by omega
          rw [Nat.mod_eq_of_lt hlt]
      simp only [fillBuffer, List.getD_cons_succ]
      rw [hstep, ih ((j + 1) % f.length) i (Nat.mod_lt _ (by omega)) (by omega)]
      congr 1
      rw [Nat.mod_add_mod]
      congr 1
      omega

/--
Claim C1: for a Replace rule with value `v` and fill `f` applied to payload
`p`: if `|v| = |p|` the rewritten payload equals `v`; otherwise, when `f` is
non-empty, the payload is overwritten by tiling `f` across its entire length
(byte `i` becomes `f[i mod |f|]`); and when `f` is empty and `|v| ≠ |p|` the
payload is left completely unchanged.
-/
theorem replaceRule_rewrite_spec (v f p : List Nat) :
    (v.length = p.length → replaceRewrite v f p = v) ∧
    (v.length ≠ p.length → f ≠ [] →
      (replaceRewrite v f p).length = p.length ∧
      ∀ i, i < p.length → (replaceRewrite v f p).getD i 0 = f.getD (i % f.length) 0) ∧
    (v.length ≠ p.length → f = [] → replaceRewrite v f p = p) := by
  refine ⟨?_, ?_, ?_⟩
  · intro hlen
    by_cases hv : v = []
    · have hp : p = [] := by
        subst hv
        exact (List.length_eq_zero.mp hlen.symm)
      subst hv; subst hp
      simp [replaceRewrite, fillBuffer]
    · unfold replaceRewrite
      rw [if_pos ⟨hv, hlen⟩, hlen, List.drop_length, List.append_nil]
  · intro hne hf
    have hcond : ¬(v ≠ [] ∧ v.length = p.length) := by tauto
    unfold replaceRewrite
    rw [if_neg hcond, if_pos hf]
    refine ⟨fillBuffer_length f 0 p.length, fun i hi => ?_⟩
    have h := fillBuffer_getD f p.length 0 i (List.length_pos.mpr hf) hi
    simpa using h
  · intro hne hf
    have hcond : ¬(v ≠ [] ∧ v.length = p.length) := by tauto
    unfold replaceRewrite
    rw [if_neg hcond, if_neg (fun h => h hf)]

theorem replaceRule_rewrite_spec_witness :
    replaceRewrite [88, 88, 88, 88, 88, 88, 88, 88, 88] [88]
        [49, 50, 51, 52, 53, 54, 55, 56, 57] = [88, 88, 88, 88, 88, 88, 88, 88, 88] ∧
    ((replaceRewrite [88, 88, 88, 88, 88, 88, 88, 88, 88] [88] [52, 50]).length = 2 ∧
      ∀ i, i < 2 →
        (replaceRewrite [88, 88, 88, 88, 88, 88, 88, 88, 88] [88] [52, 50]).getD i 0 =
          [88].getD (i % 1) 0) ∧
    replaceRewrite [88, 88, 88] [] [52, 50] = [52, 50] :=
  ⟨(replaceRule_rewrite_spec [88, 88, 88, 88, 88, 88, 88, 88, 88] [88]
      [49, 50, 51, 52, 53, 54, 55, 56, 57]).1 (by decide),
   (replaceRule_rewrite_spec [88, 88, 88, 88, 88, 88, 88, 88, 88] [88] [52, 50]).2.1
      (by decide) (by decide),
   (replaceRule_rewrite_spec [88, 88, 88] [] [52, 50]).2.2 (by decide) rfl⟩

/--
Counterexample to claim C6: byte 255 is not an ASCII letter, and the code
maps it to 31, not to `min (255 + 32) 127 = 127` as the claim states.  (The
`char` arithmetic wraps before the saturation test is reached; byte 255 gives
31 under either possible signedness of `char`.)
-/
theorem obfuscate_not_saturating_min :
    maxscale_basic_obfuscation 255 = 31 ∧ min (255 + 32) 127 = 127 ∧ (31 : Nat) ≠ 127 := by
  decide

/--
Claim C6 (amended): `ObfuscateRule::rewrite` maps every ASCII letter to its
ROT13 image with case preserved; every other byte `b` is mapped to
`(b + 32) mod 256` — the narrowing of `c + 32` to `char` wraps, and the
saturation test `d > 127 ? 127 : d` never fires because `char` is signed on
the build platform.
-/
theorem obfuscate_byte_spec : ∀ b < 256,
    maxscale_basic_obfuscation b =
      if 97 ≤ b ∧ b ≤ 122 then (b - 97 + 13) % 26 + 97
      else if 65 ≤ b ∧ b ≤ 90 then (b - 65 + 13) % 26 + 65
      else (b + 32) % 256 := by
  decide

theorem obfuscate_byte_spec_witness :
    maxscale_basic_obfuscation 255 =
      if 97 ≤ 255 ∧ 255 ≤ 122 then (255 - 97 + 13) % 26 + 97
      else if 65 ≤ 255 ∧ 255 ≤ 90 then (255 - 65 + 13) % 26 + 65
      else (255 + 32) % 256 :=
  obfuscate_byte_spec 255 (by decide)

theorem obfuscate_rot13_involutive (b : Nat)
    (hl : (97 ≤ b ∧ b ≤ 122) ∨ (65 ≤ b ∧ b ≤ 90)) :
    maxscale_basic_obfuscation (maxscale_basic_obfuscation b) = b := by
  rcases hl with ⟨h1, h2⟩ | ⟨h1, h2⟩ <;> interval_cases b <;> decide

theorem getD_map_of_lt (g : Nat → Nat) :
    ∀ (l : List Nat) (i : Nat), i < l.length → (l.map g).getD i 0 = g (l.getD i 0) := by
  intro l
  induction l with
  | nil => intro i hi; simp at hi
  | cons a l ih =>
    intro i hi
    cases i with
    | zero => simp
    | succ i =>
      simp only [List.map_cons, List.getD_cons_succ]
      exact ih i (by simpa using hi)

/--
Claim C9: applying `ObfuscateRule::rewrite` twice returns every ASCII letter
byte of the payload to its original value (ROT13 restricted to letters is an
involution).
-/
theorem obfuscate_twice_restores_letters (p : List Nat) (i : Nat) (hi : i < p.length)
    (hl : (97 ≤ p.getD i 0 ∧ p.getD i 0 ≤ 122) ∨ (65 ≤ p.getD i 0 ∧ p.getD i 0 ≤ 90)) :
    (obfuscateRewrite (obfuscateRewrite p)).getD i 0 = p.getD i 0 := by
  unfold obfuscateRewrite
  rw [getD_map_of_lt _ _ _ (by simpa using hi), getD_map_of_lt _ _ _ hi]
  exact obfuscate_rot13_involutive _ hl

theorem obfuscate_twice_restores_letters_witness :
    (obfuscateRewrite (obfuscateRewrite [104, 33, 122])).getD 0 0 = [104, 33, 122].getD 0 0 :=
  obfuscate_twice_restores_letters [104, 33, 122] 0 (by decide) (by decide)

theorem overwrite_length (p : List Nat) (s0 n : Nat) (fill : List Nat)
    (h : s0 + n ≤ p.length) : (overwrite p s0 n fill).length = p.length := by
  simp only [overwrite, List.length_append, List.length_take, List.length_drop,
    fillBuffer_length]
  omega

theorem captureAux_some_length (pm : List Nat → Nat → MatchRes) (fill : List Nat)
    (hpm : ∀ q off rvm s0 e0, pm q off = MatchRes.found rvm s0 e0 →
      off ≤ s0 ∧ s0 ≤ e0 ∧ e0 ≤ q.length) :
    ∀ fuel p off rv q rv', captureAux pm fill p off rv fuel = some (q, rv') →
      q.length = p.length := by
  intro fuel
  induction fuel with
  | zero => intro p off rv q rv' h; simp [captureAux] at h
  | succ fuel ih =>
    intro p off rv q rv' h
    by_cases hoff : off < p.length
    · cases hpmres : pm p off with
      | fail rv2 =>
        simp [captureAux, hoff, hpmres] at h
        rw [← h.1]
      | found rvm s0 e0 =>
        by_cases hz : e0 = s0
        · simp [captureAux, hoff, hpmres, hz] at h
          rw [← h.1]
        · simp only [captureAux, if_pos hoff, hpmres, if_neg hz] at h
          obtain ⟨h1, h2, h3⟩ := hpm p off rvm s0 e0 hpmres
          have hlen : (overwrite p s0 (e0 - s0) fill).length = p.length :=
            overwrite_length _ _ _ _ (by omega)
          rw [ih _ _ _ _ _ h, hlen]
    · simp [captureAux, hoff] at h
      rw [← h.1]

/--
Claim C2: every masking rewrite operation leaves the total length of the
column payload unchanged: Replace (copy or fill tiling), Obfuscate (bytewise
map), and Capture, the latter under the PCRE2 contract that every reported
match `(s0, e0)` satisfies `off ≤ s0 ≤ e0 ≤ length of the subject`.
-/
theorem masking_rewrites_preserve_length (v f fill p : List Nat)
    (pm : List Nat → Nat → MatchRes)
    (hpm : ∀ q off rvm s0 e0, pm q off = MatchRes.found rvm s0 e0 →
      off ≤ s0 ∧ s0 ≤ e0 ∧ e0 ≤ q.length) :
    (replaceRewrite v f p).length = p.length ∧
    (obfuscateRewrite p).length = p.length ∧
    ∀ q rv, captureRewrite pm fill p = some (q, rv) → q.length = p.length := by
  refine ⟨?_, by simp [obfuscateRewrite], fun q rv h => captureAux_some_length pm fill hpm _ _ _ _ _ _ h⟩
  unfold replaceRewrite
  split
  next hc =>
    simp only [List.length_append, List.length_drop]
    omega
  next =>
    split
    next => rw [fillBuffer_length]
    next => rfl

/-- A match function that always reports `PCRE2_ERROR_NOMATCH`. -/
def pmNever : List Nat → Nat → MatchRes := fun _ _ => MatchRes.fail (-1)

theorem masking_rewrites_preserve_length_witness :
    (replaceRewrite [88] [89] [49, 50, 51]).length = [49, 50, 51].length ∧
    (obfuscateRewrite [49, 50, 51]).length = [49, 50, 51].length ∧
    ∀ q rv, captureRewrite pmNever [42] [49, 50, 51] = some (q, rv) →
      q.length = [49, 50, 51].length :=
  masking_rewrites_preserve_length [88] [89] [42] [49, 50, 51] pmNever
    (fun _ _ _ _ _ h => nomatch h)

theorem captureAux_terminates (pm : List Nat → Nat → MatchRes) (fill : List Nat)
    (hpm : ∀ q off rvm s0 e0, pm q off = MatchRes.found rvm s0 e0 →
      off ≤ s0 ∧ s0 ≤ e0 ∧ e0 ≤ q.length) :
    ∀ fuel p off rv, p.length - off < fuel → captureAux pm fill p off rv fuel ≠ none := by
  intro fuel
  induction fuel with
  | zero => intro p off rv h; exact absurd h (Nat.not_lt_zero _)
  | succ fuel ih =>
    intro p off rv h
    by_cases hoff : off < p.length
    · cases hpmres : pm p off with
      | fail rv2 => simp [captureAux, hoff, hpmres]
      | found rvm s0 e0 =>
        by_cases hz : e0 = s0
        · simp [captureAux, hoff, hpmres, hz]
        · obtain ⟨h1, h2, h3⟩ := hpm p off rvm s0 e0 hpmres
          have hlen : (overwrite p s0 (e0 - s0) fill).length = p.length :=
            overwrite_length _ _ _ _ (by omega)
          have hrec := ih (overwrite p s0 (e0 - s0) fill) e0 rvm (by rw [hlen]; omega)
          simpa [captureAux, hoff, hpmres, hz] using hrec
    · simp [captureAux, hoff]

/--
Claim C8: `CaptureRule::rewrite` terminates on every payload and every
compiled regex: under the PCRE2 contract (a reported match `(s0, e0)` lies at
or after the start offset and inside the subject), each iteration either
advances the offset strictly past a non-zero-length match or exits on a
zero-length match, so fuel `p.length + 1` never runs out.
-/
theorem capture_rewrite_terminates (pm : List Nat → Nat → MatchRes) (fill p : List Nat)
    (hpm : ∀ q off rvm s0 e0, pm q off = MatchRes.found rvm s0 e0 →
      off ≤ s0 ∧ s0 ≤ e0 ∧ e0 ≤ q.length) :
    captureRewrite pm fill p ≠ none :=
  captureAux_terminates pm fill hpm (p.length + 1) p 0 0 (by omega)

theorem capture_rewrite_terminates_witness :
    captureRewrite pmNever [42] [49, 50, 51] ≠ none :=
  capture_rewrite_terminates pmNever [42] [49, 50, 51] (fun _ _ _ _ _ h => nomatch h)

/--
Claim C7 (code bug exhibit): a capture run whose matching loop ends with an
ordinary no-match leaves the final return value at `PCRE2_ERROR_NOMATCH = -1`,
and the source's condition `rv < 0 && (rv != PCRE2_ERROR_NOMATCH ||
PCRE2_ERROR_PARTIAL)` then logs a PCRE2 error, while the intended corrected
condition `rv != NOMATCH && rv != PARTIAL` does not; the same holds for a
partial match (`-2`).
-/
theorem capture_error_logging_bug :
    captureRewrite pmNever [42] [49, 50, 51] = some ([49, 50, 51], -1) ∧
    capture_logs_error (-1) = true ∧
    capture_logs_error_intended (-1) = false ∧
    capture_logs_error (-2) = true ∧
    capture_logs_error_intended (-2) = false := by
  refine ⟨rfl, by decide, by decide, by decide, by decide⟩

/--
The column metadata a masking rule is matched against
(`ComQueryResponse::ColumnDef`): the schema, original table name and original
column name of a result-set column definition packet.
-/
structure ColumnDef where
  schema : String
  org_table : String
  org_name : String
deriving DecidableEq

/--
Modelled from the spec: MySQL-wildcard matching of a host pattern against a
host name, the semantics of the PCRE2 regex that `mxs_mysql_name_to_pcre`
(a helper that is not under src/) builds from a wildcarded account specifier:
`%` matches any run of characters, `_` matches exactly one character, every
other character matches itself, and the whole host must be consumed.
-/
def wmatch : List Char → List Char → Bool
  | [], [] => true
  | [], _ :: _ => false
  | '%' :: ps, s =>
    wmatch ps s ||
      (match s with
       | [] => false
       | _ :: s' => wmatch ('%' :: ps) s')
  | '_' :: ps, s =>
    (match s with
     | [] => false
     | _ :: s' => wmatch ps s')
  | c :: ps, s =>
    (match s with
     | [] => false
     | d :: s' => (c == d) && wmatch ps s')
termination_by p s => (s.length, p.length)

/--
`MaskingRules::Rule::Account`: `verbatim` models `AccountVerbatim` (byte
comparison of user and host, an empty part matching anything), `regexp`
models `AccountRegexp` (byte comparison of the user, wildcard/regex matching
of the host pattern).
-/
inductive Account where
  | verbatim (user host : String)
  | regexp (user hostPattern : String)
deriving DecidableEq

/--
`Account::matches(zUser, zHost)` of the two implementations: `AccountVerbatim`
compares both parts verbatim; `AccountRegexp` compares the user verbatim and
runs the compiled host regex (modelled by `wmatch`) on the host.
-/
def Account.matches : Account → String → String → Bool
  | .verbatim u h, zUser, zHost => (u == "" || u == zUser) && (h == "" || h == zHost)
  | .regexp u hp, zUser, zHost => (u == "" || u == zUser) && wmatch hp.data zHost.data

/--
The data of `MaskingRules::Rule`: mandatory column name, optional (possibly
empty) table and database names, and the `applies_to` and `exempted` account
lists.
-/
structure Rule where
  column : String
  table : String
  database : String
  applies_to : List Account
  exempted : List Account
deriving DecidableEq

/--
`MaskingRules::Rule::matches(column_def, zUser, zHost)`: the column name must
equal `org_name`, the table and database must match when non-empty; when the
column matched and `applies_to` is non-empty, some account must match the
user/host; when still a match and `exempted` is non-empty, no account of it
may match the user/host.
-/
def Rule.matches (r : Rule) (cd : ColumnDef) (zUser zHost : String) : Bool :=
  if (r.column == cd.org_name) && (r.table == "" || r.table == cd.org_table) &&
      (r.database == "" || r.database == cd.schema) then
    if (if r.applies_to.length = 0 then true
        else r.applies_to.any fun a => a.matches zUser zHost) ∧
        r.exempted.length ≠ 0 then
      !(r.exempted.any fun a => a.matches zUser zHost)
    else
      if r.applies_to.length = 0 then true
      else r.applies_to.any fun a => a.matches zUser zHost
  else false

/--
`MaskingRules::get_rule_for(column_def, zUser, zHost)`: `std::find_if` over
the loaded rules vector, returning the first matching rule and null when none
matches.
-/
def get_rule_for (rules : List Rule) (cd : ColumnDef) (zUser zHost : String) : Option Rule :=
  rules.find? fun r => r.matches cd zUser zHost

/--
Claim C4: `Rule::matches(column_def, user, host)` is true if and only if the
rule's column equals `org_name`; its table is empty or equals `org_table`;
its database is empty or equals `schema`; when `applies_to` is non-empty at
least one of its accounts matches (user, host); and when `exempted` is
non-empty none of its accounts matches (user, host).
-/
theorem rule_matches_iff (r : Rule) (cd : ColumnDef) (zUser zHost : String) :
    r.matches cd zUser zHost = true ↔
      (r.column = cd.org_name ∧
       (r.table = "" ∨ r.table = cd.org_table) ∧
       (r.database = "" ∨ r.database = cd.schema) ∧
       (r.applies_to ≠ [] → ∃ a ∈ r.applies_to, a.matches zUser zHost = true) ∧
       (r.exempted ≠ [] → ∀ a ∈ r.exempted, a.matches zUser zHost = false)) := by
  unfold Rule.matches
  by_cases h0 : ((r.column == cd.org_name) && (r.table == "" || r.table == cd.org_table) &&
      (r.database == "" || r.database == cd.schema)) = true
  · rw [if_pos h0]
    simp only [Bool.and_eq_true, beq_iff_eq, Bool.or_eq_true] at h0
    obtain ⟨⟨hc, ht⟩, hd⟩ := h0
    by_cases happ : (if r.applies_to.length = 0 then true
        else r.applies_to.any fun a => a.matches zUser zHost) = true
    · have happ' : r.applies_to ≠ [] →
          ∃ a ∈ r.applies_to, a.matches zUser zHost = true := by
        intro hne
        split at happ
        next hlen => exact absurd (List.length_eq_zero.mp hlen) hne
        next => exact List.any_eq_true.mp happ
      by_cases hex : r.exempted.length ≠ 0
      · rw [if_pos ⟨happ, hex⟩]
        have hexne : r.exempted ≠ [] := fun h => hex (by simp [h])
        simp only [Bool.not_eq_true', List.any_eq_false]
        constructor
        · intro hall
          exact ⟨hc, ht, hd, happ', fun _ a ha => by simpa using hall a ha⟩
        · intro hrhs a ha
          simpa using hrhs.2.2.2.2 hexne a ha
      · rw [if_neg (fun hcon => hex hcon.2), happ]
        have hexnil : r.exempted = [] := List.length_eq_zero.mp (by omega)
        simp only [true_iff]
        exact ⟨hc, ht, hd, happ', fun hne => absurd hexnil hne⟩
    · have happf : (if r.applies_to.length = 0 then true
          else r.applies_to.any fun a => a.matches zUser zHost) = false :=
        Bool.not_eq_true _ ▸ (by simpa using happ)
      rw [if_neg (fun hcon => happ hcon.1), happf]
      simp only [Bool.false_eq_true, false_iff]
      rintro ⟨_, _, _, h4, _⟩
      split at happf
      next => exact Bool.noConfusion happf
      next hlen =>
        have hne : r.applies_to ≠ [] := fun h => hlen (by simp [h])
        obtain ⟨a, ha, hma⟩ := h4 hne
        exact absurd hma (by simpa using List.any_eq_false.mp happf a ha)
  · rw [if_neg h0]
    simp only [Bool.false_eq_true, false_iff]
    rintro ⟨hc, ht, hd, _, _⟩
    refine h0 ?_
    simp only [Bool.and_eq_true, beq_iff_eq, Bool.or_eq_true]
    exact ⟨⟨hc, ht⟩, hd⟩

/--
Claim C10: `MaskingRules::get_rule_for` returns the first rule, in the order
of the loaded rules array, whose `matches` is true — every rule before it in
the array does not match — and null exactly when no rule matches; a later
matching rule is never selected.
-/
theorem get_rule_for_first_match (rules : List Rule) (cd : ColumnDef) (zUser zHost : String) :
    (∀ r : Rule, get_rule_for rules cd zUser zHost = some r ↔
      (r.matches cd zUser zHost = true ∧
       ∃ pre post, rules = pre ++ r :: post ∧
         ∀ r' ∈ pre, r'.matches cd zUser zHost = false)) ∧
    (get_rule_for rules cd zUser zHost = none ↔
      ∀ r ∈ rules, r.matches cd zUser zHost = false) := by
  constructor
  · intro r
    unfold get_rule_for
    induction rules with
    | nil =>
      simp only [List.find?_nil]
      constructor
      · intro h; exact Option.noConfusion h
      · rintro ⟨_, pre, post, hsplit, _⟩
        exact absurd hsplit (by simp)
    | cons a l ih =>
      by_cases ha : a.matches cd zUser zHost = true
      · rw [@List.find?_cons_of_pos Rule (fun r => r.matches cd zUser zHost) a l ha]
        constructor
        · intro h
          obtain rfl : a = r := Option.some.inj h
          exact ⟨ha, [], l, rfl, by simp⟩
        · rintro ⟨hr, pre, post, hsplit, hpre⟩
          cases pre with
          | nil => simp only [List.nil_append, List.cons.injEq] at hsplit
                   rw [hsplit.1]
          | cons b pre' =>
            simp only [List.cons_append, List.cons.injEq] at hsplit
            exact absurd (hsplit.1 ▸ ha) (by simp [hpre b (by simp)])
      · rw [@List.find?_cons_of_neg Rule (fun r => r.matches cd zUser zHost) a l ha]
        rw [ih]
        constructor
        · rintro ⟨hr, pre, post, hsplit, hpre⟩
          refine ⟨hr, a :: pre, post, by rw [hsplit]; rfl, ?_⟩
          intro r' hr'
          rcases List.mem_cons.mp hr' with h | h
          · rw [h]; simpa using ha
          · exact hpre r' h
        · rintro ⟨hr, pre, post, hsplit, hpre⟩
          cases pre with
          | nil =>
            simp only [List.nil_append, List.cons.injEq] at hsplit
            exact absurd (hsplit.1 ▸ hr) ha
          | cons b pre' =>
            simp only [List.cons_append, List.cons.injEq] at hsplit
            exact ⟨hr, pre', post, hsplit.2,
              fun r' h => hpre r' (by simp [h])⟩
  · unfold get_rule_for
    rw [List.find?_eq_none]
    constructor
    · intro h r hr
      simpa using h r hr
    · intro h r hr
      simp [h r hr]

/--
The fragment of the jansson JSON value model that the masking rules file
grammar uses: strings, arrays and objects (other value kinds never reach the
checks modelled here, and a well-formed document has no duplicate keys).
-/
inductive Json where
  | str (s : String)
  | arr (elts : List Json)
  | obj (fields : List (String × Json))

/-- `json_object_get`: key lookup in an object, null on any other value. -/
def json_object_get (j : Json) (k : String) : Option Json :=
  match j with
  | .obj fields => (fields.find? fun f => f.1 == k).map fun f => f.2
  | _ => none

/-- `json_is_object`. -/
def json_is_object : Json → Bool
  | .obj _ => true
  | _ => false

/-- `json_is_array`. -/
def json_is_array : Json → Bool
  | .arr _ => true
  | _ => false

/-- `json_is_string`. -/
def json_is_string : Json → Bool
  | .str _ => true
  | _ => false

/-- `json_string_value` (only ever applied to checked strings). -/
def json_string_value : Json → String
  | .str s => s
  | _ => ""

/-- The elements of a checked JSON array. -/
def json_array_elts : Json → List Json
  | .arr elts => elts
  | _ => []

/-- The MySQL identifier quote characters. -/
def quoteChars : List Char := "'\"`".data

/--
Modelled from the spec: `mxs_mysql_trim_quotes` (a helper that is not under
src/) strips one matching pair of surrounding quotes from an account-specifier
part and fails on an unterminated quote; an unquoted part is kept as is.
-/
def trim_quotes (s : String) : Option String :=
  match s.data with
  | [] => some s
  | c :: rest =>
    if quoteChars.contains c then
      if rest.getLast? = some c then some (String.mk rest.dropLast) else none
    else some s

/--
`create_account`: split the specifier at the first `@` into user and host
(no `@` meaning an empty, match-anything host), trim quotes from both parts,
and build an `AccountRegexp` when the host carries `%`/`_` wildcards
(`mxs_mysql_name_to_pcre`, modelled by storing the wildcard pattern for
`wmatch`) and an `AccountVerbatim` otherwise.
-/
def create_account (zAccount : String) : Option Account :=
  let cs := zAccount.data
  match trim_quotes (String.mk (cs.takeWhile fun c => c ≠ '@')) with
  | none => none
  | some user =>
    if cs.contains '@' then
      match trim_quotes (String.mk (cs.dropWhile fun c => c ≠ '@').tail) with
      | none => none
      | some host =>
        if host.data.any fun c => c = '%' ∨ c = '_' then some (Account.regexp user host)
        else some (Account.verbatim user host)
    else some (Account.verbatim user "")

/--
`get_accounts`: converts a JSON array of account specifiers into Account
instances, failing on the first element that is not a string or cannot be
converted.
-/
def get_accounts : List Json → Option (List Account)
  | [] => some []
  | j :: rest =>
    match j with
    | .str s =>
      match create_account s with
      | some a => (get_accounts rest).map fun as => a :: as
      | none => none
    | _ => none

/--
`validate_user_rules`: a present `applies_to` or `exempted` value must be an
array.
-/
def validate_user_rules (pApplies_to pExempted : Option Json) : Bool :=
  (match pApplies_to with
   | some j => json_is_array j
   | none => true) &&
  (match pExempted with
   | some j => json_is_array j
   | none => true)

/--
`rule_run_common_checks`: fetches `applies_to` and `exempted` from the rule
object, validates them, and — exactly as the source's
`pApplies_to && pExempted && (!get_accounts(...) || !get_accounts(...))`
test does — compiles the account lists only when BOTH keys are present,
returning the untouched empty vectors otherwise.
-/
def rule_run_common_checks (pRule : Json) : Option (List Account × List Account) :=
  let pApplies_to := json_object_get pRule "applies_to"
  let pExempted := json_object_get pRule "exempted"
  if validate_user_rules pApplies_to pExempted then
    match pApplies_to, pExempted with
    | some a, some e =>
      match get_accounts (json_array_elts a) with
      | none => none
      | some as =>
        match get_accounts (json_array_elts e) with
        | none => none
        | some es => some (as, es)
    | _, _ => some ([], [])
  else none

/-- `rule_get_object`: the `rule_type` key must be present and an object. -/
def rule_get_object (pRule : Json) (rule_type : String) : Option Json :=
  match json_object_get pRule rule_type with
  | some o => if json_is_object o then some o else none
  | none => none

/--
`rule_check_database_options`: `column` is mandatory and must be a string;
`table` and `database` are optional but must be strings when present.
-/
def rule_check_database_options (pColumn pTable pDatabase : Option Json) : Bool :=
  (match pColumn with
   | some j => json_is_string j
   | none => false) &&
  (match pTable with
   | some j => json_is_string j
   | none => true) &&
  (match pDatabase with
   | some j => json_is_string j
   | none => true)

/--
`rule_get_common_values`: extracts `column`, `table` and `database` (the two
optional ones defaulting to the empty string) from the rule-kind object.
-/
def rule_get_common_values (pKeyObj : Json) : Option (String × String × String) :=
  let pDatabase := json_object_get pKeyObj "database"
  let pTable := json_object_get pKeyObj "table"
  let pColumn := json_object_get pKeyObj "column"
  if rule_check_database_options pColumn pTable pDatabase then
    some ((match pColumn with
           | some c => json_string_value c
           | none => ""),
          (match pTable with
           | some t => json_string_value t
           | none => ""),
          (match pDatabase with
           | some d => json_string_value d
           | none => ""))
  else none

/--
`rule_get_values`: the rule-kind object check, the account checks and the
common value extraction, chained as in the source.
-/
def rule_get_values (pRule : Json) (rule_type : String) :
    Option (List Account × List Account × String × String × String) :=
  match rule_get_object pRule rule_type with
  | none => none
  | some pKeyObj =>
    match rule_run_common_checks pRule with
    | none => none
    | some (as, es) =>
      match rule_get_common_values pKeyObj with
      | none => none
      | some (c, t, d) => some (as, es, c, t, d)

/--
`rule_get_fill`: the `fill` value of a `with` object, defaulting to `"X"`
when absent (the `json_string()` allocation is modelled as succeeding).
-/
def rule_get_fill (pDoc : Json) : Option Json :=
  match json_object_get pDoc "fill" with
  | some f => some f
  | none => some (Json.str "X")

/--
`rule_get_value_fill`: `with` must be an object whose `fill` (after
defaulting) and `value` are strings.
-/
def rule_get_value_fill (pRule : Json) : Option (String × String) :=
  match json_object_get pRule "with" with
  | some pWith =>
    if json_is_object pWith then
      match rule_get_fill pWith with
      | some pTheFill =>
        match json_object_get pWith "value" with
        | some pTheValue =>
          if json_is_string pTheFill && json_is_string pTheValue then
            some (json_string_value pTheValue, json_string_value pTheFill)
          else none
        | none => none
      | none => none
    else none
  | none => none

/--
`rule_get_capture_fill`: `with` must be an object; `fill` comes from it
(after defaulting) and `capture` from the `replace` object, both strings.
-/
def rule_get_capture_fill (pRule : Json) : Option (String × String) :=
  match json_object_get pRule "with" with
  | some pWith =>
    if json_is_object pWith then
      match rule_get_object pRule "replace" with
      | some pKeyObj =>
        match rule_get_fill pWith with
        | some pTheFill =>
          match json_object_get pKeyObj "capture" with
          | some pTheCapture =>
            if json_is_string pTheFill && json_is_string pTheCapture then
              some (json_string_value pTheCapture, json_string_value pTheFill)
            else none
          | none => none
        | none => none
      | none => none
    else none
  | none => none

/--
A loaded masking rule with its kind: `ReplaceRule` (value, fill),
`ObfuscateRule`, or `CaptureRule` (compiled pattern, fill).
-/
inductive MRule where
  | replace (base : Rule) (value fill : String)
  | obfuscate (base : Rule)
  | capture (base : Rule) (pattern fill : String)
deriving DecidableEq

/--
`MaskingRules::ReplaceRule::create_from`: base values plus `value`/`fill`,
both of which must be non-empty.
-/
def ReplaceRule_create_from (pRule : Json) : Option MRule :=
  match rule_get_values pRule "replace", rule_get_value_fill pRule with
  | some (as, es, c, t, d), some (v, f) =>
    if v ≠ "" ∧ f ≠ "" then some (MRule.replace ⟨c, t, d, as, es⟩ v f) else none
  | _, _ => none

/-- `MaskingRules::ObfuscateRule::create_from`: base values only. -/
def ObfuscateRule_create_from (pRule : Json) : Option MRule :=
  match rule_get_values pRule "obfuscate" with
  | some (as, es, c, t, d) => some (MRule.obfuscate ⟨c, t, d, as, es⟩)
  | none => none

/--
`MaskingRules::CaptureRule::create_from`: base values plus non-empty
`capture`/`fill`; `rule_compile_pcre2_match` is modelled as succeeding on the
pattern (the spec requires the regex of a loaded rule to be a compiled, valid
pattern).
-/
def CaptureRule_create_from (pRule : Json) : Option MRule :=
  match rule_get_values pRule "replace", rule_get_capture_fill pRule with
  | some (as, es, c, t, d), some (cap, f) =>
    if cap ≠ "" ∧ f ≠ "" then some (MRule.capture ⟨c, t, d, as, es⟩ cap f) else none
  | _, _ => none

/--
The body of the `create_rules_from_array` loop for one element of the `rules`
array: the element must be an object carrying `obfuscate` or `replace`;
`obfuscate` takes precedence, and inside `replace` a `capture` key selects a
Capture rule over a literal Replace rule.
-/
def create_one_rule (pRule : Json) : Option MRule :=
  if json_is_object pRule then
    match json_object_get pRule "obfuscate", json_object_get pRule "replace" with
    | none, none => none
    | some _, _ => ObfuscateRule_create_from pRule
    | none, some pReplace =>
      match json_object_get pReplace "capture" with
      | some _ => CaptureRule_create_from pRule
      | none => ReplaceRule_create_from pRule
  else none

/-- `create_rules_from_array`: all rules must be created, in order. -/
def create_rules_from_array : List Json → Option (List MRule)
  | [] => some []
  | pRule :: rest =>
    match create_one_rule pRule with
    | some r => (create_rules_from_array rest).map fun rs => r :: rs
    | none => none

/-- `create_rules_from_root`: the top-level `rules` key must be an array. -/
def create_rules_from_root (pRoot : Json) : Option (List MRule) :=
  match json_object_get pRoot "rules" with
  | some (Json.arr elts) => create_rules_from_array elts
  | some _ => none
  | none => none

/--
`MaskingRules::parse` / `MaskingRules::load` after the external jansson
parser has produced the document root: both delegate to
`MaskingRules::create_from`, which builds the rules from the root object.
-/
def MaskingRules_parse (pRoot : Json) : Option (List MRule) :=
  create_rules_from_root pRoot

/-- A replace rule document whose rule lists `applies_to` but no `exempted`. -/
def ruleLoneAppliesTo : Json :=
  Json.obj [("replace", Json.obj [("column", Json.str "ssn")]),
            ("with", Json.obj [("value", Json.str "XXXXXXXXX")]),
            ("applies_to", Json.arr [Json.str "alice@host1"])]

/-- The same rule with both `applies_to` and `exempted` present. -/
def ruleBothLists : Json :=
  Json.obj [("replace", Json.obj [("column", Json.str "ssn")]),
            ("with", Json.obj [("value", Json.str "XXXXXXXXX")]),
            ("applies_to", Json.arr [Json.str "alice@host1"]),
            ("exempted", Json.arr [Json.str "bob@host2"])]

/--
Claim C5 (code bug exhibit): `create_account` does compile the specifier
`alice@host1` into a verbatim account matcher, and a rules document whose
rule carries both `applies_to` and `exempted` gets both lists compiled; but a
rules document whose rule carries `applies_to` WITHOUT `exempted` is accepted
with BOTH account lists left empty — the source only calls `get_accounts`
when the two keys are simultaneously present, so the lone `applies_to`
specifiers are silently dropped and the rule applies to every user.
-/
theorem masking_lone_applies_to_ignored :
    create_account "alice@host1" = some (Account.verbatim "alice" "host1") ∧
    MaskingRules_parse (Json.obj [("rules", Json.arr [ruleBothLists])]) =
      some [MRule.replace ⟨"ssn", "", "",
        [Account.verbatim "alice" "host1"], [Account.verbatim "bob" "host2"]⟩ "XXXXXXXXX" "X"] ∧
    MaskingRules_parse (Json.obj [("rules", Json.arr [ruleLoneAppliesTo])]) =
      some [MRule.replace ⟨"ssn", "", "", [], []⟩ "XXXXXXXXX" "X"] :=
  ⟨rfl, rfl, rfl⟩

/-- Configuration value `use_sql_variables_in` of the readwritesplit router. -/
inductive MxsTarget where
  | master
  | all
deriving DecidableEq

/-- The packet kind a routing step hands back toward the client. -/
inductive ClientReply where
  | ok
  | err
  | resultset
deriving DecidableEq

/-- Outcome of routing one statement: the client-visible reply kind and how
many backends the statement was sent to. -/
structure RouteResult where
  reply : ClientReply
  backendsRouted : Nat
deriving DecidableEq

/-- The per-client router session state the claim observes. -/
structure RwSession where
  alive : Bool
deriving DecidableEq

/-- Classification of one COM_QUERY statement, as far as the claim needs. -/
structure QueryInfo where
  isSelect : Bool
  modifiesUserVar : Bool
  isSessionModifying : Bool
deriving DecidableEq

/--
Modelled from the spec: the readwritesplit routing step for one statement.
The router sources are not under src/ (only the bug694 regression test and
`router.h` are), so this follows the spec: under `use_sql_variables_in=all`,
a SELECT that modifies a user variable is rejected outright
(CLASSIFICATION_REJECT — a client ERR packet is synthesized, the statement is
routed to no backend, and the session stays alive); a session-modifying
statement such as `USE` is broadcast to all backends with an OK reply; any
other statement is routed to a single backend.
-/
def routeQuery (cfg : MxsTarget) (nBackends : Nat) (s : RwSession) (q : QueryInfo) :
    RwSession × RouteResult :=
  if s.alive = false then (s, ⟨ClientReply.err, 0⟩)
  else if cfg = MxsTarget.all ∧ q.isSelect = true ∧ q.modifiesUserVar = true then
    (s, ⟨ClientReply.err, 0⟩)
  else if q.isSessionModifying = true then (s, ⟨ClientReply.ok, nBackends⟩)
  else (s, ⟨ClientReply.resultset, 1⟩)

/--
Claim C3: with `use_sql_variables_in=all`, a COM_QUERY SELECT assigning to a
user variable is never routed to more than one backend (it is routed to
none), a client ERR packet is synthesized (CLASSIFICATION_REJECT), and the
session is kept alive, so that a following `USE test` statement still
succeeds.
-/
theorem rwsplit_var_select_rejected (nBackends : Nat) (s : RwSession) (q qUse : QueryInfo)
    (hAlive : s.alive = true) (hSel : q.isSelect = true) (hVar : q.modifiesUserVar = true)
    (hUseNotSel : qUse.isSelect = false) (hUse : qUse.isSessionModifying = true) :
    (routeQuery MxsTarget.all nBackends s q).2.backendsRouted ≤ 1 ∧
    (routeQuery MxsTarget.all nBackends s q).2.reply = ClientReply.err ∧
    (routeQuery MxsTarget.all nBackends s q).1.alive = true ∧
    (routeQuery MxsTarget.all nBackends
      (routeQuery MxsTarget.all nBackends s q).1 qUse).2.reply = ClientReply.ok := by
  simp [routeQuery, hAlive, hSel, hVar, hUseNotSel, hUse]

theorem rwsplit_var_select_rejected_witness :
    (routeQuery MxsTarget.all 4 ⟨true⟩ ⟨true, true, false⟩).2.backendsRouted ≤ 1 ∧
    (routeQuery MxsTarget.all 4 ⟨true⟩ ⟨true, true, false⟩).2.reply = ClientReply.err ∧
    (routeQuery MxsTarget.all 4 ⟨true⟩ ⟨true, true, false⟩).1.alive = true ∧
    (routeQuery MxsTarget.all 4
      (routeQuery MxsTarget.all 4 ⟨true⟩ ⟨true, true, false⟩).1
      ⟨false, false, true⟩).2.reply = ClientReply.ok :=
  rwsplit_var_select_rejected 4 ⟨true⟩ ⟨true, true, false⟩ ⟨false, false, true⟩
    rfl rfl rfl rfl rfl
